import Mathlib

/-!
Shallow embedding of the gallery viewer's data pipeline (`src/src/App.tsx`).

The repository contains two variants of the component:
* variant 1 (multi-page): fetches `TOTAL_PAGES` pages concurrently, merges
  them, deduplicates by `id` (keeping the first occurrence, skipping falsy
  ids), filters by truthy `date_start && title`, buckets by decade, drops
  buckets with fewer than 20 members, and sorts buckets ascending;
* variant 2 (single-page): fetches one page, filters the same way (no
  deduplication), buckets by decade, sorts buckets ascending, no minimum
  bucket size.

JavaScript numbers holding integral values are modelled as `Int`; optional
fields as `Option`; JS truthiness of a number is `≠ 0`, of a string is
`≠ ""`, of an optional as `Option.some` of a truthy value.  `Math.floor`
composed with real division by 10 is `Int.fdiv · 10`.  `Array.prototype.sort`
(stable, ascending comparators throughout) is `List.insertionSort`, which has
the same stable insert-before-first-greater behaviour.  The insertion-ordered
JS `Map` is an association list with insert-or-append semantics.
-/

/-- The `Artwork` record type (fields projected from the API). -/
structure Artwork where
  id : Int
  title : String
  artist_display : Option String := none
  date_display : Option String := none
  date_start : Option Int := none
  image_id : Option String := none
deriving DecidableEq, Repr

/-- The `DecadeCollection` record type. -/
structure DecadeCollection where
  label : String
  startYear : Int
  artworks : List Artwork
deriving DecidableEq, Repr

/-- Fallback image URL used when no image identifier is present (both variants). -/
def fallbackImageUrl : String :=
  "https://images.artic.edu/iiif/2/8d6f8f8b-fafa-376e-4f0f-0a36d4f7288f/full/843,/0/default.jpg"

/-- `imageUrl` from the source: IIIF URL when the image id is truthy, else the
fixed fallback.  A JS string is falsy when `undefined` or empty. -/
def imageUrl (imageId : Option String) : String :=
  match imageId with
  | some s =>
      if s = "" then fallbackImageUrl
      else "https://www.artic.edu/iiif/2/" ++ s ++ "/full/843,/0/default.jpg"
  | none => fallbackImageUrl

/-- Truthiness of the optional numeric `date_start` field (`0` is falsy in JS). -/
def truthyDate : Option Int → Bool
  | none => false
  | some y => y != 0

/-- The retention predicate `(item) => item.date_start && item.title` used by
both variants' filters. -/
def keepArtwork (item : Artwork) : Bool :=
  truthyDate item.date_start && (item.title != "")

/-- Deduplication loop of variant 1: a `Map<number, Artwork>` insert keyed by
`id`, skipping falsy (zero) ids and already-seen ids; `seen` carries the key
set, output order is `Map` insertion order. -/
def dedupGo (seen : List Int) : List Artwork → List Artwork
  | [] => []
  | item :: rest =>
      if item.id ≠ 0 ∧ item.id ∉ seen then
        item :: dedupGo (item.id :: seen) rest
      else
        dedupGo seen rest

/-- `[...deduped.values()]` for the merged page list (variant 1). -/
def dedupById (merged : List Artwork) : List Artwork := dedupGo [] merged

/-- `pages.flat()`: concatenation of the fetched pages in page order. -/
def mergePages (pages : List (List Artwork)) : List Artwork := pages.flatten

/-- Variant 1 aggregator: merge, dedupe by id, then filter by
`item.date_start && item.title`. -/
def aggregateV1 (pages : List (List Artwork)) : List Artwork :=
  (dedupById (mergePages pages)).filter keepArtwork

/-- Variant 2 aggregator: filter the single page directly (no deduplication). -/
def filterV2 (page : List Artwork) : List Artwork := page.filter keepArtwork

/-- `Math.floor(date_start / 10) * 10` — floor division works for negative
years too. -/
def decadeStart (y : Int) : Int := Int.fdiv y 10 * 10

/-- One step of the bucket `Map`: append to the entry with this key, or add a
fresh entry at the end (JS `Map` preserves key insertion order). -/
def insertBucket (key : Int) (item : Artwork) :
    List (Int × List Artwork) → List (Int × List Artwork)
  | [] => [(key, [item])]
  | (k, items) :: rest =>
      if k = key then (k, items ++ [item]) :: rest
      else (k, items) :: insertBucket key item rest

/-- The `artworks.forEach` grouping loop shared by both `decades` memos:
records without a numeric `date_start` are skipped. -/
def bucketsGo (acc : List (Int × List Artwork)) : List Artwork → List (Int × List Artwork)
  | [] => acc
  | item :: rest =>
      match item.date_start with
      | none => bucketsGo acc rest
      | some y => bucketsGo (insertBucket (decadeStart y) item acc) rest

/-- `[...buckets.entries()]` built from the record list. -/
def buildBuckets (artworks : List Artwork) : List (Int × List Artwork) :=
  bucketsGo [] artworks

/-- Within-bucket comparator `(a, b) => (a.date_start ?? 0) - (b.date_start ?? 0)`. -/
def dateRel (a b : Artwork) : Prop := a.date_start.getD 0 ≤ b.date_start.getD 0

instance : DecidableRel dateRel :=
  fun x z => inferInstanceAs (Decidable (x.date_start.getD 0 ≤ z.date_start.getD 0))

/-- Entry comparator `([a], [b]) => a - b` of variant 2 (sort by decade key). -/
def entryRel (p q : Int × List Artwork) : Prop := p.1 ≤ q.1

instance : DecidableRel entryRel := fun x z => inferInstanceAs (Decidable (x.1 ≤ z.1))

/-- Collection comparator `(a, b) => a.startYear - b.startYear` of variant 1. -/
def colRel (b c : DecadeCollection) : Prop := b.startYear ≤ c.startYear

instance : DecidableRel colRel :=
  fun x z => inferInstanceAs (Decidable (x.startYear ≤ z.startYear))

/-- Map a bucket entry to a `DecadeCollection`: label `"{startYear}s"`, and the
members sorted ascending by `date_start ?? 0` (both variants do this). -/
def toCollection (entry : Int × List Artwork) : DecadeCollection :=
  { label := toString entry.1 ++ "s"
    startYear := entry.1
    artworks := List.insertionSort dateRel entry.2 }

/-- Variant 1 `decades` memo: map entries in insertion order, drop collections
with fewer than 20 members, then sort collections ascending by start year. -/
def decadesV1 (artworks : List Artwork) : List DecadeCollection :=
  List.insertionSort colRel
    (((buildBuckets artworks).map toCollection).filter (fun c => 20 ≤ c.artworks.length))

/-- Variant 2 `decades` memo: sort entries ascending by decade key, then map;
no minimum size. -/
def decadesV2 (artworks : List Artwork) : List DecadeCollection :=
  (List.insertionSort entryRel (buildBuckets artworks)).map toCollection

/-- An HTTP response as the load pipeline observes it. -/
structure HttpResponse where
  ok : Bool
  status : Nat
  data : List Artwork
deriving DecidableEq, Repr

/-- `fetchArtworkPage`: throw `Unable to load artwork data (HTTP {status})` on a
non-ok response, otherwise produce `json.data`. -/
def fetchArtworkPage (resp : HttpResponse) : Except String (List Artwork) :=
  if resp.ok then .ok resp.data
  else .error ("Unable to load artwork data (HTTP " ++ toString resp.status ++ ")")

/-- `Promise.all` join semantics: all pages, or the first rejection. -/
def promiseAll : List (Except String α) → Except String (List α)
  | [] => .ok []
  | .error e :: _ => .error e
  | .ok a :: rest =>
      match promiseAll rest with
      | .ok tail => .ok (a :: tail)
      | .error e => .error e

/-- The component state touched by the load effect. -/
structure LoadState where
  artworks : List Artwork
  isLoading : Bool
  error : Option String
deriving DecidableEq, Repr

/-- Variant 1 `fetchArtworks` settled against a given list of page responses:
on success the aggregated records are stored; on failure the error message is
stored and the record set stays at its initial `[]`; `finally` clears the
loading flag either way. -/
def loadV1 (responses : List HttpResponse) : LoadState :=
  match promiseAll (responses.map fetchArtworkPage) with
  | .ok pages => { artworks := aggregateV1 pages, isLoading := false, error := none }
  | .error e => { artworks := [], isLoading := false, error := some e }

/-- The selection-clamp effect: when the bucket list is empty it returns without
touching the index, otherwise it stores `min(current, decades.length - 1)`. -/
def clampSelection (decadesLen : Nat) (current : Int) : Int :=
  if decadesLen = 0 then current else min current ((decadesLen : Int) - 1)

/-- Record 1 of the spec's scenario page. -/
def cr1 : Artwork := { id := 1, title := "A", date_start := some 1923 }

/-- Record 2 of the spec's scenario page (empty title). -/
def cr2 : Artwork := { id := 2, title := "", date_start := some 1925 }

/-- Record 3 of the spec's scenario page (duplicate id). -/
def cr3 : Artwork := { id := 1, title := "A-dup", date_start := some 1923 }

/-- A sample record with a negative start year. -/
def negArt : Artwork := { id := 7, title := "N", date_start := some (-5) }

/-- A sample record with the numeric start year `0`. -/
def zeroDateArt : Artwork := { id := 3, title := "T", date_start := some 0 }

/-- A sample record with id `0`. -/
def zeroIdArt : Artwork := { id := 0, title := "T", date_start := some 5 }

/-- A second sample record with id `0`, distinct fields. -/
def zeroIdArt2 : Artwork := { id := 0, title := "U", date_start := some 6 }

/-! ### Ordering facts for the three sort comparators -/

instance : IsTotal Artwork dateRel := ⟨fun a b => Int.le_total _ _⟩

instance : IsTrans Artwork dateRel := ⟨fun _ _ _ hab hbc => le_trans hab hbc⟩

instance : IsTotal (Int × List Artwork) entryRel := ⟨fun p q => Int.le_total _ _⟩

instance : IsTrans (Int × List Artwork) entryRel := ⟨fun _ _ _ hab hbc => le_trans hab hbc⟩

instance : IsTotal DecadeCollection colRel := ⟨fun b c => Int.le_total _ _⟩

instance : IsTrans DecadeCollection colRel := ⟨fun _ _ _ hab hbc => le_trans hab hbc⟩

/-! ### Bucket-map lemmas -/

/-- A record belongs to the decade with key `k`. -/
def InDecade (k : Int) (x : Artwork) : Prop :=
  ∃ y, x.date_start = some y ∧ decadeStart y = k

theorem mem_fst_insertBucket {key k' : Int} {item : Artwork}
    {bs : List (Int × List Artwork)} :
    k' ∈ (insertBucket key item bs).map Prod.fst ↔ k' = key ∨ k' ∈ bs.map Prod.fst := by
  induction bs with
  | nil => simp [insertBucket]
  | cons e rest ih =>
      obtain ⟨k, items⟩ := e
      by_cases hk : k = key
      · subst hk
        simp [insertBucket]
      · simp [insertBucket, hk, ih]
        tauto

theorem nodup_fst_insertBucket {key : Int} {item : Artwork}
    {bs : List (Int × List Artwork)} (h : (bs.map Prod.fst).Nodup) :
    ((insertBucket key item bs).map Prod.fst).Nodup := by
  induction bs with
  | nil => simp [insertBucket]
  | cons e rest ih =>
      obtain ⟨k, items⟩ := e
      simp only [List.map_cons, List.nodup_cons] at h
      by_cases hk : k = key
      · subst hk
        simpa [insertBucket] using h
      · simp only [insertBucket, hk, if_false, List.map_cons, List.nodup_cons]
        refine ⟨fun hmem => ?_, ih h.2⟩
        rcases mem_fst_insertBucket.mp hmem with h1 | h1
        · exact hk h1
        · exact h.1 h1

theorem inv_insertBucket {key : Int} {item : Artwork} {bs : List (Int × List Artwork)}
    (hbs : ∀ e ∈ bs, ∀ x ∈ e.2, InDecade e.1 x) (hitem : InDecade key item) :
    ∀ e ∈ insertBucket key item bs, ∀ x ∈ e.2, InDecade e.1 x := by
  induction bs with
  | nil =>
      intro e he
      simp only [insertBucket, List.mem_singleton] at he
      subst he
      intro x hx
      simp only [List.mem_singleton] at hx
      subst hx
      exact hitem
  | cons b rest ih =>
      obtain ⟨k, items⟩ := b
      have hb := hbs (k, items) (List.mem_cons_self _ _)
      have hrest : ∀ e ∈ rest, ∀ x ∈ e.2, InDecade e.1 x :=
        fun e he => hbs e (List.mem_cons_of_mem _ he)
      by_cases hk : k = key
      · subst hk
        intro e he
        simp only [insertBucket, if_true] at he
        rcases List.mem_cons.mp he with he | he
        · subst he
          intro x hx
          rcases List.mem_append.mp hx with hx | hx
          · exact hb x hx
          · simp only [List.mem_singleton] at hx
            subst hx
            exact hitem
        · exact hrest e he
      · intro e he
        simp only [insertBucket, hk, if_false] at he
        rcases List.mem_cons.mp he with he | he
        · subst he
          exact hb
        · exact ih hrest e he

theorem inv_bucketsGo {l : List Artwork} {acc : List (Int × List Artwork)}
    (hacc : ∀ e ∈ acc, ∀ x ∈ e.2, InDecade e.1 x) :
    ∀ e ∈ bucketsGo acc l, ∀ x ∈ e.2, InDecade e.1 x := by
  induction l generalizing acc with
  | nil => simpa [bucketsGo] using hacc
  | cons item rest ih =>
      cases hds : item.date_start with
      | none => simpa [bucketsGo, hds] using ih hacc
      | some y =>
          simp only [bucketsGo, hds]
          exact ih (inv_insertBucket hacc ⟨y, hds, rfl⟩)

theorem inv_buildBuckets {l : List Artwork} :
    ∀ e ∈ buildBuckets l, ∀ x ∈ e.2, InDecade e.1 x :=
  inv_bucketsGo (by simp)

theorem nodup_fst_bucketsGo {l : List Artwork} {acc : List (Int × List Artwork)}
    (hacc : (acc.map Prod.fst).Nodup) : ((bucketsGo acc l).map Prod.fst).Nodup := by
  induction l generalizing acc with
  | nil => simpa [bucketsGo] using hacc
  | cons item rest ih =>
      cases hds : item.date_start with
      | none => simpa [bucketsGo, hds] using ih hacc
      | some y =>
          simp only [bucketsGo, hds]
          exact ih (nodup_fst_insertBucket hacc)

theorem nodup_fst_buildBuckets {l : List Artwork} :
    ((buildBuckets l).map Prod.fst).Nodup :=
  nodup_fst_bucketsGo (by simp)

theorem exists_mem_insertBucket_self {key : Int} {item : Artwork}
    (bs : List (Int × List Artwork)) :
    ∃ items, (key, items) ∈ insertBucket key item bs ∧ item ∈ items := by
  induction bs with
  | nil => exact ⟨[item], by simp [insertBucket]⟩
  | cons e rest ih =>
      obtain ⟨k, items⟩ := e
      by_cases hk : k = key
      · subst hk
        exact ⟨items ++ [item], by simp [insertBucket]⟩
      · obtain ⟨its, hmem, hit⟩ := ih
        exact ⟨its, by simp [insertBucket, hk, hmem], hit⟩

theorem insertBucket_preserves_mem {k key : Int} {a item : Artwork}
    {bs : List (Int × List Artwork)}
    (h : ∃ items, (k, items) ∈ bs ∧ a ∈ items) :
    ∃ items, (k, items) ∈ insertBucket key item bs ∧ a ∈ items := by
  induction bs with
  | nil => simp at h
  | cons e rest ih =>
      obtain ⟨k', items'⟩ := e
      obtain ⟨its, hmem, hit⟩ := h
      rcases List.mem_cons.mp hmem with heq | hmem'
      · rw [Prod.mk.injEq] at heq
        obtain ⟨hk', hits⟩ := heq
        subst hk'
        subst hits
        by_cases hkk : k = key
        · subst hkk
          exact ⟨its ++ [item], by simp [insertBucket], List.mem_append_left _ hit⟩
        · exact ⟨its, by simp [insertBucket, hkk], hit⟩
      · by_cases hkk : k' = key
        · subst hkk
          exact ⟨its, by simp [insertBucket, hmem'], hit⟩
        · obtain ⟨its2, hmem2, hit2⟩ := ih ⟨its, hmem', hit⟩
          exact ⟨its2, by simp [insertBucket, hkk, hmem2], hit2⟩

theorem bucketsGo_preserves_mem {k : Int} {a : Artwork} {l : List Artwork}
    {acc : List (Int × List Artwork)}
    (h : ∃ items, (k, items) ∈ acc ∧ a ∈ items) :
    ∃ items, (k, items) ∈ bucketsGo acc l ∧ a ∈ items := by
  induction l generalizing acc with
  | nil => simpa [bucketsGo] using h
  | cons item rest ih =>
      cases hds : item.date_start with
      | none => simpa [bucketsGo, hds] using ih h
      | some y =>
          simp only [bucketsGo, hds]
          exact ih (insertBucket_preserves_mem h)

theorem bucketsGo_complete {a : Artwork} {y : Int} {l : List Artwork}
    (ha : a ∈ l) (hy : a.date_start = some y) :
    ∀ acc, ∃ items, (decadeStart y, items) ∈ bucketsGo acc l ∧ a ∈ items := by
  induction l with
  | nil => cases ha
  | cons item rest ih =>
      intro acc
      rcases List.mem_cons.mp ha with heq | hmem
      · subst heq
        simp only [bucketsGo, hy]
        exact bucketsGo_preserves_mem (exists_mem_insertBucket_self acc)
      · cases hds : item.date_start with
        | none => simpa [bucketsGo, hds] using ih hmem acc
        | some y' =>
            simp only [bucketsGo, hds]
            exact ih hmem _

theorem buildBuckets_complete {a : Artwork} {y : Int} {l : List Artwork}
    (ha : a ∈ l) (hy : a.date_start = some y) :
    ∃ items, (decadeStart y, items) ∈ buildBuckets l ∧ a ∈ items :=
  bucketsGo_complete ha hy []

/-! ### Deduplication lemmas -/

theorem dedupGo_sublist (seen : List Int) (l : List Artwork) :
    List.Sublist (dedupGo seen l) l := by
  induction l generalizing seen with
  | nil => simp [dedupGo]
  | cons item rest ih =>
      by_cases hcond : item.id ≠ 0 ∧ item.id ∉ seen
      · simpa [dedupGo, hcond] using List.Sublist.cons₂ item (ih _)
      · simpa [dedupGo, hcond] using List.Sublist.cons item (ih seen)

theorem dedupGo_id_ne_zero {a : Artwork} {l : List Artwork} {seen : List Int}
    (h : a ∈ dedupGo seen l) : a.id ≠ 0 := by
  induction l generalizing seen with
  | nil => simp [dedupGo] at h
  | cons item rest ih =>
      by_cases hcond : item.id ≠ 0 ∧ item.id ∉ seen
      · simp only [dedupGo, if_pos hcond] at h
        rcases List.mem_cons.mp h with heq | hmem
        · subst heq
          exact hcond.1
        · exact ih hmem
      · simp only [dedupGo, if_neg hcond] at h
        exact ih h

theorem dedupGo_filter_eq {k : Int} (hk : k ≠ 0) (seen : List Int) (l : List Artwork) :
    (dedupGo seen l).filter (fun a => a.id == k) =
      if k ∈ seen then [] else (l.find? (fun a => a.id == k)).toList := by
  induction l generalizing seen with
  | nil => simp [dedupGo]
  | cons item rest ih =>
      by_cases hcond : item.id ≠ 0 ∧ item.id ∉ seen
      · simp only [dedupGo, if_pos hcond]
        by_cases hik : item.id = k
        · subst hik
          rw [List.filter_cons_of_pos (by simp), ih (item.id :: seen)]
          rw [if_pos (List.mem_cons_self _ _), if_neg hcond.2]
          rw [List.find?_cons_of_pos _ (by simp)]
          rfl
        · rw [List.filter_cons_of_neg (by simp [hik]), ih (item.id :: seen)]
          rw [List.find?_cons_of_neg _ (by simp [hik])]
          by_cases hks : k ∈ seen
          · rw [if_pos (List.mem_cons_of_mem _ hks), if_pos hks]
          · rw [if_neg (by
              simp only [List.mem_cons]
              exact not_or.mpr ⟨fun h => hik h.symm, hks⟩), if_neg hks]
      · simp only [dedupGo, if_neg hcond]
        rw [ih seen]
        by_cases hks : k ∈ seen
        · rw [if_pos hks, if_pos hks]
        · have hik : item.id ≠ k := by
            rcases not_and_or.mp hcond with h0 | hseen
            · have h00 : item.id = 0 := not_not.mp h0
              intro he
              exact hk (h00 ▸ he).symm
            · have hin : item.id ∈ seen := not_not.mp hseen
              intro he
              exact hks (he ▸ hin)
          rw [if_neg hks, if_neg hks, List.find?_cons_of_neg _ (by simp [hik])]

/-! ### Membership helpers for the two decades memos -/

theorem toCollection_startYear (e : Int × List Artwork) :
    (toCollection e).startYear = e.1 := rfl

theorem mem_toCollection_artworks {e : Int × List Artwork} {x : Artwork} :
    x ∈ (toCollection e).artworks ↔ x ∈ e.2 :=
  List.mem_insertionSort dateRel

theorem mem_decadesV2_iff {l : List Artwork} {b : DecadeCollection} :
    b ∈ decadesV2 l ↔ ∃ e ∈ buildBuckets l, toCollection e = b := by
  constructor
  · intro hb
    obtain ⟨e, he, heq⟩ := List.mem_map.mp hb
    exact ⟨e, (List.mem_insertionSort entryRel).mp he, heq⟩
  · rintro ⟨e, he, heq⟩
    exact List.mem_map.mpr ⟨e, (List.mem_insertionSort entryRel).mpr he, heq⟩

theorem mem_decadesV1_iff {l : List Artwork} {b : DecadeCollection} :
    b ∈ decadesV1 l ↔ (∃ e ∈ buildBuckets l, toCollection e = b) ∧ 20 ≤ b.artworks.length := by
  constructor
  · intro hb
    have hb2 := (List.mem_insertionSort colRel).mp hb
    have hb3 := List.mem_filter.mp hb2
    obtain ⟨e, he, heq⟩ := List.mem_map.mp hb3.1
    exact ⟨⟨e, he, heq⟩, of_decide_eq_true hb3.2⟩
  · rintro ⟨⟨e, he, heq⟩, hlen⟩
    refine (List.mem_insertionSort colRel).mpr (List.mem_filter.mpr ?_)
    exact ⟨List.mem_map.mpr ⟨e, he, heq⟩, decide_eq_true hlen⟩

theorem keepArtwork_eq_false {r : Artwork}
    (h : r.title = "" ∨ r.date_start = none ∨ r.date_start = some 0) :
    keepArtwork r = false := by
  rcases h with h | h | h
  · simp [keepArtwork, h]
  · simp [keepArtwork, truthyDate, h]
  · simp [keepArtwork, truthyDate, h]

theorem not_mem_filter_of_keep_false {r : Artwork} {l : List Artwork}
    (h : keepArtwork r = false) : r ∉ l.filter keepArtwork := by
  intro hmem
  have := (List.mem_filter.mp hmem).2
  rw [h] at this
  cases this

/-! ### Claim theorems -/

/-- C8: for a record with a truthy image identifier `s`, the derived image URL
is exactly `https://www.artic.edu/iiif/2/{s}/full/843,/0/default.jpg`; with no
image identifier the URL is the fixed fallback, which is the constant
identifier `8d6f8f8b-fafa-376e-4f0f-0a36d4f7288f` under the same IIIF path. -/
theorem c8_image_url :
    (∀ s : String, s ≠ "" →
      imageUrl (some s) = "https://www.artic.edu/iiif/2/" ++ s ++ "/full/843,/0/default.jpg")
    ∧ imageUrl none =
        "https://images.artic.edu/iiif/2/" ++ "8d6f8f8b-fafa-376e-4f0f-0a36d4f7288f" ++
          "/full/843,/0/default.jpg" := by
  constructor
  · intro s hs
    simp [imageUrl, hs]
  · decide

/-- Witness for C8 at the concrete identifier `"abc"`. -/
theorem c8_image_url_witness :
    imageUrl (some "abc") = "https://www.artic.edu/iiif/2/" ++ "abc" ++ "/full/843,/0/default.jpg" :=
  c8_image_url.1 "abc" (by decide)

/-- C7: when the bucket list is nonempty and the previous index is nonnegative,
the clamp effect stores `min(current, bucketCount - 1)`; an index beyond
`bucketCount - 1` becomes exactly `bucketCount - 1`, and the result is never
negative. -/
theorem c7_selection_clamp (decadesLen : Nat) (current : Int) (hcur : 0 ≤ current) :
    (1 ≤ decadesLen →
      clampSelection decadesLen current = min current ((decadesLen : Int) - 1))
    ∧ (1 ≤ decadesLen → (decadesLen : Int) - 1 < current →
        clampSelection decadesLen current = (decadesLen : Int) - 1)
    ∧ 0 ≤ clampSelection decadesLen current := by
  refine ⟨fun hlen => ?_, fun hlen hgt => ?_, ?_⟩
  · have hne : decadesLen ≠ 0 := by omega
    simp [clampSelection, hne]
  · have hne : decadesLen ≠ 0 := by omega
    simp only [clampSelection, hne, if_false]
    exact min_eq_right (le_of_lt hgt)
  · by_cases hne : decadesLen = 0
    · simpa [clampSelection, hne] using hcur
    · have hlen : 1 ≤ decadesLen := by omega
      have h0 : (0 : Int) ≤ (decadesLen : Int) - 1 := by
        have : (1 : Int) ≤ (decadesLen : Int) := by exact_mod_cast hlen
        omega
      simp only [clampSelection, hne, if_false]
      exact le_min hcur h0

/-- Witness for C7: three buckets, previous index 7, clamped to 2. -/
theorem c7_selection_clamp_witness :
    clampSelection 3 7 = min 7 (((3 : Nat) : Int) - 1)
    ∧ clampSelection 3 7 = ((3 : Nat) : Int) - 1
    ∧ 0 ≤ clampSelection 3 7 :=
  ⟨(c7_selection_clamp 3 7 (by decide)).1 (by decide),
    (c7_selection_clamp 3 7 (by decide)).2.1 (by decide) (by decide),
    (c7_selection_clamp 3 7 (by decide)).2.2⟩

/-- C5: a record lacking a truthy title or lacking a numeric start year never
appears in the output record set of either variant. -/
theorem c5_required_fields (pages : List (List Artwork)) (page : List Artwork)
    (r : Artwork) (h : r.title = "" ∨ r.date_start = none) :
    r ∉ aggregateV1 pages ∧ r ∉ filterV2 page := by
  have hkeep : keepArtwork r = false := by
    rcases h with h | h
    · exact keepArtwork_eq_false (Or.inl h)
    · exact keepArtwork_eq_false (Or.inr (Or.inl h))
  exact ⟨not_mem_filter_of_keep_false hkeep, not_mem_filter_of_keep_false hkeep⟩

/-- Witness for C5 at the empty-titled scenario record. -/
theorem c5_required_fields_witness :
    cr2 ∉ aggregateV1 [[cr1, cr2, cr3]] ∧ cr2 ∉ filterV2 [cr1, cr2, cr3] :=
  c5_required_fields [[cr1, cr2, cr3]] [cr1, cr2, cr3] cr2 (Or.inl (by decide))

/-- C10: a record whose `date_start` is the number `0` is discarded by the
retention filter of both variants (the filter tests truthiness, and `0` is
falsy), and in the multi-page variant a record whose `id` is `0` is dropped
during deduplication. -/
theorem c10_zero_is_falsy (pages : List (List Artwork)) (page : List Artwork)
    (r a : Artwork) (hr : r.date_start = some 0) (ha : a.id = 0) :
    r ∉ aggregateV1 pages ∧ r ∉ filterV2 page
    ∧ a ∉ dedupById (mergePages pages) := by
  have hkeep : keepArtwork r = false := keepArtwork_eq_false (Or.inr (Or.inr hr))
  refine ⟨not_mem_filter_of_keep_false hkeep, not_mem_filter_of_keep_false hkeep, ?_⟩
  intro hmem
  exact dedupGo_id_ne_zero hmem ha

/-- Witness for C10 at a record with start year `0` and one with id `0`. -/
theorem c10_zero_is_falsy_witness :
    zeroDateArt ∉ aggregateV1 [[zeroDateArt, zeroIdArt]]
    ∧ zeroDateArt ∉ filterV2 [zeroDateArt, zeroIdArt]
    ∧ zeroIdArt ∉ dedupById (mergePages [[zeroDateArt, zeroIdArt]]) :=
  c10_zero_is_falsy [[zeroDateArt, zeroIdArt]] [zeroDateArt, zeroIdArt]
    zeroDateArt zeroIdArt (by decide) (by decide)

/-- C4: in the merged page concatenation, for any truthy identifier `k` the
deduplicated output contains exactly the first record carrying `k` (so a later
record sharing `k` never survives), and the output is a sublist of the merge,
i.e. it preserves the insertion order of the surviving first occurrences. -/
theorem c4_dedup_first_occurrence (pages : List (List Artwork)) (k : Int) (hk : k ≠ 0) :
    (dedupById (mergePages pages)).filter (fun a => a.id == k)
      = ((mergePages pages).find? (fun a => a.id == k)).toList
    ∧ List.Sublist (dedupById (mergePages pages)) (mergePages pages) := by
  constructor
  · have h := dedupGo_filter_eq hk [] (mergePages pages)
    simpa [dedupById] using h
  · exact dedupGo_sublist [] (mergePages pages)

/-- Witness for C4: a duplicate of id 1 arriving on a later page is dropped. -/
theorem c4_dedup_first_occurrence_witness :
    (dedupById (mergePages [[cr1, cr2], [cr3]])).filter (fun a => a.id == 1)
      = ((mergePages [[cr1, cr2], [cr3]]).find? (fun a => a.id == 1)).toList
    ∧ List.Sublist (dedupById (mergePages [[cr1, cr2], [cr3]]))
        (mergePages [[cr1, cr2], [cr3]]) :=
  c4_dedup_first_occurrence [[cr1, cr2], [cr3]] 1 (by decide)

/-- `Promise.all` over the mapped fetches rejects with the message of the first
non-ok response. -/
theorem promiseAll_fetch_error {responses : List HttpResponse} {resp : HttpResponse}
    (h : responses.find? (fun r => !r.ok) = some resp) :
    promiseAll (responses.map fetchArtworkPage)
      = .error ("Unable to load artwork data (HTTP " ++ toString resp.status ++ ")") := by
  induction responses with
  | nil => simp at h
  | cons r rest ih =>
      by_cases hok : r.ok
      · rw [List.find?_cons_of_neg _ (by simp [hok])] at h
        have hfetch : fetchArtworkPage r = .ok r.data := by simp [fetchArtworkPage, hok]
        simp only [List.map_cons, hfetch, promiseAll, ih h]
      · rw [List.find?_cons_of_pos _ (by simp [hok])] at h
        obtain rfl : r = resp := Option.some.inj h
        have hfetch : fetchArtworkPage r
            = .error ("Unable to load artwork data (HTTP " ++ toString r.status ++ ")") := by
          simp [fetchArtworkPage, hok]
        simp [List.map_cons, hfetch, promiseAll]

/-- C6: when the first non-ok response has status `s`, the load operation ends
with an error message that embeds `s` (the exact source message, which contains
the status code as a substring), the loading flag false, and an empty record
set. -/
theorem c6_http_error (responses : List HttpResponse) (resp : HttpResponse)
    (h : responses.find? (fun r => !r.ok) = some resp) :
    (loadV1 responses).error
        = some ("Unable to load artwork data (HTTP " ++ toString resp.status ++ ")")
    ∧ (∃ pre post, (loadV1 responses).error
        = some (pre ++ toString resp.status ++ post))
    ∧ (loadV1 responses).isLoading = false
    ∧ (loadV1 responses).artworks = [] := by
  have herr := promiseAll_fetch_error h
  refine ⟨?_, ⟨"Unable to load artwork data (HTTP ", ")", ?_⟩, ?_, ?_⟩ <;>
    simp [loadV1, herr]

/-- Witness for C6 at a concrete 500 response. -/
theorem c6_http_error_witness :
    (loadV1 [⟨true, 200, []⟩, ⟨false, 500, []⟩]).error
        = some ("Unable to load artwork data (HTTP " ++ toString (500 : Nat) ++ ")")
    ∧ (∃ pre post, (loadV1 [⟨true, 200, []⟩, ⟨false, 500, []⟩]).error
        = some (pre ++ toString (500 : Nat) ++ post))
    ∧ (loadV1 [⟨true, 200, []⟩, ⟨false, 500, []⟩]).isLoading = false
    ∧ (loadV1 [⟨true, 200, []⟩, ⟨false, 500, []⟩]).artworks = [] :=
  c6_http_error [⟨true, 200, []⟩, ⟨false, 500, []⟩] ⟨false, 500, []⟩ (by decide)

/-- C2: both variants return the bucket list sorted ascending by start year,
and within each bucket the members sorted ascending by `date_start ?? 0`. -/
theorem c2_sorted_output (l : List Artwork) :
    (decadesV1 l).Pairwise (fun b c => b.startYear ≤ c.startYear)
    ∧ (decadesV2 l).Pairwise (fun b c => b.startYear ≤ c.startYear)
    ∧ (∀ b ∈ decadesV1 l, b.artworks.Pairwise
        (fun x z => x.date_start.getD 0 ≤ z.date_start.getD 0))
    ∧ (∀ b ∈ decadesV2 l, b.artworks.Pairwise
        (fun x z => x.date_start.getD 0 ≤ z.date_start.getD 0)) := by
  refine ⟨?_, ?_, ?_, ?_⟩
  · exact List.sorted_insertionSort colRel _
  · exact List.pairwise_map.mpr (List.sorted_insertionSort entryRel _)
  · intro b hb
    obtain ⟨⟨e, he, heq⟩, hlen⟩ := mem_decadesV1_iff.mp hb
    subst heq
    exact List.sorted_insertionSort dateRel _
  · intro b hb
    obtain ⟨e, he, heq⟩ := mem_decadesV2_iff.mp hb
    subst heq
    exact List.sorted_insertionSort dateRel _

/-- Witness for C2 within-bucket sortedness at a concrete two-record bucket. -/
theorem c2_sorted_output_witness :
    (DecadeCollection.mk "1920s" 1920 [cr1, cr3]).artworks.Pairwise
      (fun x z => x.date_start.getD 0 ≤ z.date_start.getD 0) :=
  (c2_sorted_output [cr1, cr3]).2.2.2 ⟨"1920s", 1920, [cr1, cr3]⟩ (by decide)

/-- C9: every bucket the multi-page variant returns has at least 20 members
(smaller decade groups are dropped), while the single-page variant applies no
minimum: every record with a numeric start year lands in some bucket. -/
theorem c9_minimum_bucket_size (l : List Artwork) :
    (∀ b ∈ decadesV1 l, 20 ≤ b.artworks.length)
    ∧ (∀ a ∈ l, ∀ y, a.date_start = some y → ∃ b ∈ decadesV2 l, a ∈ b.artworks) := by
  constructor
  · intro b hb
    exact (mem_decadesV1_iff.mp hb).2
  · intro a ha y hy
    obtain ⟨items, hmem, hain⟩ := buildBuckets_complete ha hy
    exact ⟨toCollection (decadeStart y, items),
      mem_decadesV2_iff.mpr ⟨(decadeStart y, items), hmem, rfl⟩,
      mem_toCollection_artworks.mpr hain⟩

/-- Witness for C9: a 20-member decade survives variant 1's minimum, and a
single sparse record still gets a bucket in variant 2. -/
theorem c9_minimum_bucket_size_witness :
    20 ≤ (DecadeCollection.mk "1920s" 1920 (List.replicate 20 cr1)).artworks.length
    ∧ ∃ b ∈ decadesV2 [negArt], negArt ∈ b.artworks :=
  ⟨(c9_minimum_bucket_size (List.replicate 20 cr1)).1
      ⟨"1920s", 1920, List.replicate 20 cr1⟩ (by decide),
    (c9_minimum_bucket_size [negArt]).2 negArt (by decide) (-5) (by decide)⟩

/-- Two bucket entries sharing a member are the same entry (keys are unique and
determined by the member's decade). -/
theorem bucket_entry_unique {l : List Artwork} {e₁ e₂ : Int × List Artwork}
    (h₁ : e₁ ∈ buildBuckets l) (h₂ : e₂ ∈ buildBuckets l) {a : Artwork}
    (ha₁ : a ∈ e₁.2) (ha₂ : a ∈ e₂.2) : e₁ = e₂ := by
  obtain ⟨y₁, hy₁, hd₁⟩ := inv_buildBuckets e₁ h₁ a ha₁
  obtain ⟨y₂, hy₂, hd₂⟩ := inv_buildBuckets e₂ h₂ a ha₂
  have hy : y₁ = y₂ := Option.some.inj (hy₁.symm.trans hy₂)
  exact List.inj_on_of_nodup_map nodup_fst_buildBuckets h₁ h₂ (by rw [← hd₁, ← hd₂, hy])

/-- C1 (amended): in both variants every bucket member has a numeric start year
whose floored decade equals the bucket's start year (negative years included);
in the single-page variant every record with a numeric start year appears in
exactly one bucket; in the multi-page variant a record appears in at most one
bucket (records of decades with fewer than 20 survivors appear in none). -/
theorem c1_decade_invariant (l : List Artwork) :
    (∀ b ∈ decadesV1 l, ∀ x ∈ b.artworks,
      ∃ y, x.date_start = some y ∧ b.startYear = decadeStart y)
    ∧ (∀ b ∈ decadesV2 l, ∀ x ∈ b.artworks,
      ∃ y, x.date_start = some y ∧ b.startYear = decadeStart y)
    ∧ (∀ a ∈ l, ∀ y, a.date_start = some y →
        ∃! b, b ∈ decadesV2 l ∧ a ∈ b.artworks)
    ∧ (∀ b₁, b₁ ∈ decadesV1 l → ∀ b₂, b₂ ∈ decadesV1 l →
        ∀ a, a ∈ b₁.artworks → a ∈ b₂.artworks → b₁ = b₂) := by
  refine ⟨?_, ?_, ?_, ?_⟩
  · intro b hb x hx
    obtain ⟨⟨e, he, heq⟩, hlen⟩ := mem_decadesV1_iff.mp hb
    subst heq
    obtain ⟨y, hy, hd⟩ := inv_buildBuckets e he x (mem_toCollection_artworks.mp hx)
    exact ⟨y, hy, by rw [toCollection_startYear, ← hd]⟩
  · intro b hb x hx
    obtain ⟨e, he, heq⟩ := mem_decadesV2_iff.mp hb
    subst heq
    obtain ⟨y, hy, hd⟩ := inv_buildBuckets e he x (mem_toCollection_artworks.mp hx)
    exact ⟨y, hy, by rw [toCollection_startYear, ← hd]⟩
  · intro a ha y hy
    obtain ⟨items, hmem, hain⟩ := buildBuckets_complete ha hy
    refine ⟨toCollection (decadeStart y, items),
      ⟨mem_decadesV2_iff.mpr ⟨(decadeStart y, items), hmem, rfl⟩,
        mem_toCollection_artworks.mpr hain⟩, ?_⟩
    rintro b ⟨hbmem, hba⟩
    obtain ⟨e, he, heq⟩ := mem_decadesV2_iff.mp hbmem
    subst heq
    have := bucket_entry_unique he hmem (mem_toCollection_artworks.mp hba) hain
    rw [this]
  · intro b₁ hb₁ b₂ hb₂ a ha₁ ha₂
    obtain ⟨⟨e₁, he₁, heq₁⟩, _⟩ := mem_decadesV1_iff.mp hb₁
    obtain ⟨⟨e₂, he₂, heq₂⟩, _⟩ := mem_decadesV1_iff.mp hb₂
    subst heq₁
    subst heq₂
    have := bucket_entry_unique he₁ he₂
      (mem_toCollection_artworks.mp ha₁) (mem_toCollection_artworks.mp ha₂)
    rw [this]

/-- Witness for C1 (amended) at a record with a negative start year: `-5`
belongs to exactly one bucket of the single-page variant, the `-10` decade. -/
theorem c1_decade_invariant_witness :
    ∃! b, b ∈ decadesV2 [negArt] ∧ negArt ∈ b.artworks :=
  (c1_decade_invariant [negArt]).2.2.1 negArt (by decide) (-5) (by decide)

/-- Counterexample to C1 as stated: `cr1` survives the multi-page aggregator,
yet the multi-page bucketizer places it in no bucket at all, because its decade
has fewer than 20 members and is dropped. -/
theorem c1_counterexample :
    keepArtwork cr1 = true
    ∧ aggregateV1 [[cr1]] = [cr1]
    ∧ decadesV1 (aggregateV1 [[cr1]]) = []
    ∧ ¬ ∃ b ∈ decadesV1 (aggregateV1 [[cr1]]), cr1 ∈ b.artworks := by
  decide

/-- Counterexample to C3 as stated: on the scenario page, neither variant
produces the claimed pair (filtered set `[cr1]` together with the one-member
`1920s` bucket list). -/
theorem c3_counterexample :
    filterV2 [cr1, cr2, cr3] ≠ [cr1]
    ∧ decadesV1 (aggregateV1 [[cr1, cr2, cr3]])
        ≠ [{ label := "1920s", startYear := 1920, artworks := [cr1] }]
    ∧ decadesV2 (filterV2 [cr1, cr2, cr3])
        ≠ [{ label := "1920s", startYear := 1920, artworks := [cr1] }] := by
  decide

/-- C3 (amended): on the scenario page the multi-page pipeline filters to
`[cr1]` but returns an empty bucket list (the `1920s` group is below the
20-member minimum), while the single-page pipeline keeps both id-1 records
(no deduplication) and buckets them together under `1920s`. -/
theorem c3_scenario :
    aggregateV1 [[cr1, cr2, cr3]] = [cr1]
    ∧ decadesV1 (aggregateV1 [[cr1, cr2, cr3]]) = []
    ∧ filterV2 [cr1, cr2, cr3] = [cr1, cr3]
    ∧ decadesV2 (filterV2 [cr1, cr2, cr3])
        = [{ label := "1920s", startYear := 1920, artworks := [cr1, cr3] }] := by
  decide

/-- Counterexample to C4 as stated: two merged records share identifier `0`,
yet the deduplication keeps neither of them — in particular not the first
occurrence — because the id-truthiness test drops falsy ids entirely. -/
theorem c4_counterexample :
    mergePages [[zeroIdArt, zeroIdArt2]] = [zeroIdArt, zeroIdArt2]
    ∧ zeroIdArt.id = zeroIdArt2.id
    ∧ dedupById (mergePages [[zeroIdArt, zeroIdArt2]]) = []
    ∧ zeroIdArt ∉ dedupById (mergePages [[zeroIdArt, zeroIdArt2]]) := by
  decide
